import Mathlib

/-!
Verification of the waitress task engine (`waitress/task.py`) and the boolean
parser (`waitress/adjustments.py`) against their specification.

The Python code is shallowly embedded: byte strings are lists of naturals,
Python `str` values are Lean `String`s whose primitive operations
(`split`, `strip`, `lower`, `capitalize`, slicing, `int()` parsing) are
re-implemented below with the exact Python semantics, and each method of the
`Task` / `WSGITask` / `ThreadedTaskDispatcher` classes becomes a Lean function
on an explicit state record.  Calls to `channel.write_soon` and to
`self.logger.warning` are recorded in the state (`channel_writes`, `log`) so
that theorems can speak about emitted bytes and emitted warnings.  Python
exceptions are modelled with `Except String`.
-/

namespace Waitress

/-! ## Python string primitives -/

/-- Characters Python's `str.strip()` removes (ASCII whitespace). -/
def pySpaceChar (c : Char) : Bool :=
  c = ' ' ∨ c = '\t' ∨ c = '\n' ∨ c = '\r' ∨ c = '\x0b' ∨ c = '\x0c'

/-- Drop leading characters satisfying `p` (helper for `strip`). -/
def dropLeading (p : Char → Bool) : List Char → List Char
  | [] => []
  | c :: cs => if p c then dropLeading p cs else c :: cs

/-- Python `s.strip()` on a character list. -/
def pyStripList (cs : List Char) : List Char :=
  (dropLeading pySpaceChar (dropLeading pySpaceChar cs.reverse).reverse)

/-- Python `s.strip()`. -/
def pyStrip (s : String) : String :=
  String.mk (pyStripList s.data)

/-- Python `s.strip(chars)` with an explicit set of characters to remove. -/
def pyStripChars (p : Char → Bool) (s : String) : String :=
  String.mk (dropLeading p (dropLeading p s.data.reverse).reverse)

/-- Python `s.lower()` (ASCII case mapping, which is all the code relies on). -/
def pyLower (s : String) : String :=
  String.mk (s.data.map Char.toLower)

/-- Python `s.upper()` (ASCII case mapping). -/
def pyUpper (s : String) : String :=
  String.mk (s.data.map Char.toUpper)

/-- Python `s.capitalize()`: first character upper-cased, the rest lower-cased. -/
def pyCapitalize (s : String) : String :=
  match s.data with
  | [] => ""
  | c :: cs => String.mk (Char.toUpper c :: cs.map Char.toLower)

/-- Python `s.split(sep)` (single-character separator, no maxsplit) on lists. -/
def pySplitList (sep : Char) : List Char → List (List Char)
  | [] => [[]]
  | c :: cs =>
    let r := pySplitList sep cs
    if c = sep then [] :: r
    else
      match r with
      | [] => [[c]]
      | h :: t => (c :: h) :: t

/-- Python `s.split(sep)` (single-character separator). -/
def pySplit (sep : Char) (s : String) : List String :=
  (pySplitList sep s.data).map String.mk

/-- Helper for `s.split(sep, 1)`: text before the first separator, and the
remainder after it when the separator occurs. -/
def pySplit1List (sep : Char) : List Char → List Char × Option (List Char)
  | [] => ([], none)
  | c :: cs =>
    if c = sep then ([], some cs)
    else
      let r := pySplit1List sep cs
      (c :: r.1, r.2)

/-- Python `s.split(sep, 1)` (maxsplit 1): a one- or two-element list. -/
def pySplit1 (sep : Char) (s : String) : List String :=
  match pySplit1List sep s.data with
  | (h, none) => [String.mk h]
  | (h, some t) => [String.mk h, String.mk t]

/-- Python `'-'.join(parts)`-style join with a single-character separator. -/
def pyJoinList (sep : List Char) : List (List Char) → List Char
  | [] => []
  | [x] => x
  | x :: y :: t => x ++ sep ++ pyJoinList sep (y :: t)

/-- Join strings with a separator string (Python `sep.join(xs)`). -/
def pyJoin (sep : String) (xs : List String) : String :=
  String.mk (pyJoinList sep.data (xs.map String.data))

/-- Python `prefix in s`-style containment of a single character. -/
def pyHasChar (c : Char) (s : String) : Bool :=
  s.data.contains c

/-- Python `s.startswith(p)`. -/
def pyStartsWith (p s : String) : Bool :=
  p.data.isPrefixOf s.data

/-- `'\n' in s or '\r' in s` — the CR/LF check of `start_response`. -/
def containsCRLF (s : String) : Bool :=
  pyHasChar '\n' s ∨ pyHasChar '\r' s

/-- One step of Python's decimal digit parsing. -/
def digitVal (c : Char) : Nat := c.toNat - 48

/-- Parse the digit tail of a Python integer literal: digits with single
underscores allowed between digits. -/
def pyDigitsAux (acc : Nat) : List Char → Option Nat
  | [] => some acc
  | '_' :: c :: rest =>
    if c.isDigit then pyDigitsAux (acc * 10 + digitVal c) rest else none
  | '_' :: [] => none
  | c :: rest =>
    if c.isDigit then pyDigitsAux (acc * 10 + digitVal c) rest else none

/-- Parse a nonempty run of decimal digits (with Python underscore rules). -/
def pyDigits : List Char → Option Nat
  | [] => none
  | c :: rest => if c.isDigit then pyDigitsAux (digitVal c) rest else none

/-- Python `int(s)`: optional surrounding whitespace, optional sign, decimal
digits; `none` models the `ValueError` raised on anything else. -/
def pyInt (s : String) : Option Int :=
  match pyStripList s.data with
  | '+' :: rest => (pyDigits rest).map Int.ofNat
  | '-' :: rest => (pyDigits rest).map (fun n => -(n : Int))
  | rest => (pyDigits rest).map Int.ofNat

/-- Python `str(i)` for an `int` (decimal, `-` sign). -/
def pyIntRepr (i : Int) : String := toString i

/-- Python `hex(n)[2:].upper()` — uppercase hex digits, no leading zeros,
`"0"` for zero (used for chunked framing lengths). -/
def pyHexUpper (n : Nat) : String :=
  String.mk ((Nat.toDigits 16 n).map Char.toUpper)

/-! ## Python values (for `asbool` and `start_response` type checks) -/

/-- The Python values the embedded functions are applied to: `None`, `bool`,
`str` and `int`. -/
inductive PyVal where
  | pynone : PyVal
  | pybool : Bool → PyVal
  | pystr : String → PyVal
  | pyint : Int → PyVal
deriving DecidableEq

/-- Python `str(x)` for the modelled values. -/
def pyStr : PyVal → String
  | PyVal.pynone => "None"
  | PyVal.pybool true => "True"
  | PyVal.pybool false => "False"
  | PyVal.pystr s => s
  | PyVal.pyint i => pyIntRepr i

/-- `x.__class__ is str` for the modelled values. -/
def isPyStr : PyVal → Bool
  | PyVal.pystr _ => true
  | _ => false

/-! ## `adjustments.py`: the boolean parser -/

/-- `truthy = frozenset(('t', 'true', 'y', 'yes', 'on', '1'))` -/
def truthy : List String := ["t", "true", "y", "yes", "on", "1"]

/-- `asbool` from `waitress/adjustments.py`: `None` is false, booleans pass
through, anything else is stringified, stripped and lower-cased and then
tested for membership in `truthy`. -/
def asbool (s : PyVal) : Bool :=
  match s with
  | PyVal.pynone => false
  | PyVal.pybool b => b
  | _ => truthy.contains (pyLower (pyStrip (pyStr s)))

/-! ## `task.py`: the Task data model

`Task.__init__` stores the channel and request and applies the version
fallback; the remaining attributes are the class-level defaults of `Task`.
The collaborators are flattened into the state: `requestConnection` is
`request.headers.get('CONNECTION', '')`, `requestCommand` is
`request.command`, `ident` is `channel.server.adj.ident`, and `httpDate`
stands for `build_http_date(self.start_time)` (the date formatter lives in
`waitress/utilities.py`, outside the sources; its output is an opaque
string here).  `channel_writes` records every payload passed to
`channel.write_soon`, and `log` records every `self.logger.warning` call as
a short tag. -/

/-- A byte string. -/
abbrev Bytes := List Nat

/-- A response header: name and value. -/
abbrev Header := String × String

/-- ASCII bytes of a string (`tobytes`). -/
def strBytes (s : String) : Bytes := s.data.map Char.toNat

structure Task where
  version : String
  status : String
  wrote_header : Bool
  content_length : Option Int
  content_bytes_written : Int
  logged_write_excess : Bool
  logged_write_no_body : Bool
  complete : Bool
  chunked_response : Bool
  close_on_finish : Bool
  response_headers : List Header
  requestConnection : String
  requestCommand : String
  ident : String
  httpDate : String
  channel_writes : List Bytes
  log : List String
deriving DecidableEq

/-- `Task.__init__`: class defaults plus the HTTP-version fallback
(`if version not in ('1.0', '1.1'): version = '1.0'`). -/
def Task.init (reqVersion requestConnection requestCommand ident httpDate : String) :
    Task :=
  { version := if reqVersion = "1.0" ∨ reqVersion = "1.1" then reqVersion else "1.0"
  , status := "200 OK"
  , wrote_header := false
  , content_length := none
  , content_bytes_written := 0
  , logged_write_excess := false
  , logged_write_no_body := false
  , complete := false
  , chunked_response := false
  , close_on_finish := false
  , response_headers := []
  , requestConnection := requestConnection
  , requestCommand := requestCommand
  , ident := ident
  , httpDate := httpDate
  , channel_writes := []
  , log := [] }

/-- The `has_body` property: the status line does not start with `1`, `204`
or `304`. -/
def Task.has_body (t : Task) : Bool :=
  !(pyStartsWith "1" t.status || pyStartsWith "204" t.status ||
    pyStartsWith "304" t.status)

/-! ## `Task.build_response_header` -/

/-- Header-name canonicalisation:
`'-'.join([x.capitalize() for x in headername.split('-')])`. -/
def canonName (s : String) : String :=
  pyJoin "-" ((pySplit '-' s).map pyCapitalize)

/-- The locals gathered by the first loop of `build_response_header`:
the re-cased header list, `content_length_header`, `date_header`,
`server_header` and `connection_close_header`. -/
structure GatherState where
  hs : List Header
  clh : Option String
  dateh : Option String
  serverh : Option String
  cch : Option String
deriving DecidableEq

/-- One iteration of the first loop of `build_response_header`; the
`Content-Length`-with-no-body case `continue`s without appending. -/
def gatherStep (hasBody : Bool) (st : GatherState) (h : Header) : GatherState :=
  let headername := canonName h.1
  let headerval := h.2
  if headername = "Content-Length" ∧ hasBody = false then st
  else
    let st1 := if headername = "Content-Length" then { st with clh := some headerval } else st
    let st2 := if headername = "Date" then { st1 with dateh := some headerval } else st1
    let st3 := if headername = "Server" then { st2 with serverh := some headerval } else st2
    let st4 := if headername = "Connection" then { st3 with cch := some (pyLower headerval) } else st3
    { st4 with hs := st4.hs ++ [(headername, headerval)] }

/-- Python truthiness of an optional string (`if not content_length_header`
is taken both when the variable is `None` and when it is the empty string). -/
def truthyStrOpt : Option String → Bool
  | none => false
  | some s => s ≠ ""

/-- The `close_on_finish()` closure: append `Connection: close` unless the
application already supplied a `Connection` header, and set the flag. -/
def closeOnFinishFn (cch : Option String) (p : List Header × Bool) :
    List Header × Bool :=
  (if cch = none then p.1 ++ [("Connection", "close")] else p.1, true)

/-- The HTTP/1.0 arm of the connection-lifecycle dispatch. -/
def dispatch10 (connection : String) (cch clh : Option String)
    (hs : List Header) (cof : Bool) : List Header × Bool :=
  if connection = "keep-alive" then
    if truthyStrOpt clh = false then closeOnFinishFn cch (hs, cof)
    else (hs ++ [("Connection", "Keep-Alive")], cof)
  else closeOnFinishFn cch (hs, cof)

/-- The HTTP/1.1 arm of the connection-lifecycle dispatch; returns the
headers, `close_on_finish` and `chunked_response`. -/
def dispatch11 (connection : String) (cch clh : Option String)
    (hasBody : Bool) (hs : List Header) (cof chunked : Bool) :
    List Header × Bool × Bool :=
  let p1 := if connection = "close" then closeOnFinishFn cch (hs, cof) else (hs, cof)
  if truthyStrOpt clh = false then
    let p2 := if hasBody then (p1.1 ++ [("Transfer-Encoding", "chunked")], true)
              else (p1.1, chunked)
    if p1.2 = false then
      let p3 := closeOnFinishFn cch (p2.1, p1.2)
      (p3.1, p3.2, p2.2)
    else (p2.1, p1.2, p2.2)
  else (p1.1, p1.2, chunked)

/-- Fill in `Server`/`Via` and `Date` exactly as the tail of
`build_response_header` does. -/
def serverDateHeaders (t : Task) (g : GatherState) (hs : List Header) :
    List Header :=
  let hs1 :=
    if truthyStrOpt g.serverh = false then
      (if t.ident ≠ "" then hs ++ [("Server", t.ident)] else hs)
    else hs ++ [("Via", if t.ident = "" then "waitress" else t.ident)]
  if truthyStrOpt g.dateh = false then hs1 ++ [("Date", t.httpDate)] else hs1

/-- The sort key of the serialisation: compare headers by name only. -/
def headerLE (a b : Header) : Prop := a.1 ≤ b.1

instance : DecidableRel headerLE :=
  fun a b => inferInstanceAs (Decidable (a.1 ≤ b.1))

instance : IsTotal Header headerLE :=
  ⟨fun a b => le_total a.1 b.1⟩

instance : IsTrans Header headerLE :=
  ⟨fun _ _ _ hab hbc => le_trans hab hbc⟩

/-- `sorted(self.response_headers, key=lambda x: x[0])` — a stable sort
keyed only on the header name. -/
def sortHeaders (hs : List Header) : List Header :=
  List.insertionSort headerLE hs

/-- `'%s: %s' % hv` -/
def formatHeader (h : Header) : String := h.1 ++ ": " ++ h.2

/-- `lines = [first_line] + next_lines` of the serialisation. -/
def responseLines (version status : String) (hs : List Header) : List String :=
  ("HTTP/" ++ version ++ " " ++ status) :: (sortHeaders hs).map formatHeader

/-- `'%s\r\n\r\n' % '\r\n'.join(lines)` -/
def serializePrologue (version status : String) (hs : List Header) : String :=
  pyJoin "\r\n" (responseLines version status hs) ++ "\r\n\r\n"

/-- The outcome of `build_response_header`: the serialised prologue plus the
fields of `self` the method assigns (`response_headers`, `close_on_finish`,
`chunked_response`). -/
structure BRH where
  bytes : String
  response_headers : List Header
  close_on_finish : Bool
  chunked_response : Bool
deriving DecidableEq

/-- `Task.build_response_header`; the unreachable-version branch raises
`AssertionError('neither HTTP/1.0 or HTTP/1.1')`, modelled as an error. -/
def build_response_header (t : Task) : Except String BRH :=
  let connection := pyLower t.requestConnection
  let g := t.response_headers.foldl (gatherStep t.has_body) ⟨[], none, none, none, none⟩
  let synth : Option String :=
    match g.clh, t.content_length, t.has_body with
    | none, some cl, true => some (pyIntRepr cl)
    | _, _, _ => none
  let clh : Option String :=
    match synth with
    | some s => some s
    | none => g.clh
  let hs0 : List Header :=
    match synth with
    | some s => g.hs ++ [("Content-Length", s)]
    | none => g.hs
  if t.version = "1.0" then
    let p := dispatch10 connection g.cch clh hs0 t.close_on_finish
    let hs2 := serverDateHeaders t g p.1
    Except.ok ⟨serializePrologue t.version t.status hs2, hs2, p.2, t.chunked_response⟩
  else if t.version = "1.1" then
    let q := dispatch11 connection g.cch clh t.has_body hs0 t.close_on_finish t.chunked_response
    let hs2 := serverDateHeaders t g q.1
    Except.ok ⟨serializePrologue t.version t.status hs2, hs2, q.2.1, q.2.2⟩
  else Except.error "AssertionError: neither HTTP/1.0 or HTTP/1.1"

/-! ## `Task.write` and `Task.finish` -/

/-- Python `data[:k]` for an `int` bound `k` (negative bounds count from the
end and clip at zero). -/
def pySlicePrefix (data : Bytes) (k : Int) : Bytes :=
  if k < 0 then data.take ((data.length : Int) + k).toNat else data.take k.toNat

/-- The chunked framing of `write`:
`tobytes(hex(len(data))[2:].upper()) + b'\r\n' + data + b'\r\n'`. -/
def chunkFrame (data : Bytes) : Bytes :=
  strBytes (pyHexUpper data.length) ++ strBytes "\r\n" ++ data ++ strBytes "\r\n"

/-- The `elif cl is not None` arm of `write`: truncate to the remaining
budget, count the truncated length, latch the one-shot excess warning. -/
def writeBodyCL (t1 : Task) (data : Bytes) (cl : Int) : Task × Bytes :=
  let towrite := pySlicePrefix data (cl - t1.content_bytes_written)
  let t2 := { t1 with content_bytes_written := t1.content_bytes_written + towrite.length }
  let t3 :=
    if towrite ≠ data ∧ t2.logged_write_excess = false then
      { t2 with log := t2.log ++ ["write_excess"], logged_write_excess := true }
    else t2
  (t3, towrite)

/-- `if towrite: channel.write_soon(towrite)`. -/
def flushTowrite (p : Task × Bytes) : Task :=
  if p.2 ≠ [] then { p.1 with channel_writes := p.1.channel_writes ++ [p.2] } else p.1

/-- The body half of `Task.write`, entered after the prologue has been
flushed: chunk-frame, truncate against `content_length`, or pass through;
count the body-forbidden bytes and latch the one-shot warnings. -/
def writeBody (t1 : Task) (data : Bytes) : Task :=
  if data ≠ [] ∧ t1.has_body = true then
    flushTowrite
      (if t1.chunked_response then (t1, chunkFrame data)
       else
        match t1.content_length with
        | some cl => writeBodyCL t1 data cl
        | none => (t1, data))
  else
    let t2 := { t1 with content_bytes_written := t1.content_bytes_written + data.length }
    if t2.logged_write_no_body = false then
      { t2 with log := t2.log ++ ["write_no_body"], logged_write_no_body := true }
    else t2

/-- `Task.write`: demand `complete`, flush the prologue on the first call,
then run the body half. -/
def Task.write (t : Task) (data : Bytes) : Except String Task :=
  if t.complete = false then
    Except.error "RuntimeError: start_response was not called before body written"
  else
    match (if t.wrote_header = false then
            match build_response_header t with
            | Except.error e => Except.error e
            | Except.ok r =>
              Except.ok { t with
                response_headers := r.response_headers
                , chunked_response := r.chunked_response
                , close_on_finish := r.close_on_finish
                , channel_writes := t.channel_writes ++ [strBytes r.bytes]
                , wrote_header := true }
          else Except.ok t) with
    | Except.error e => Except.error e
    | Except.ok t1 => Except.ok (writeBody t1 data)

/-- `Task.finish`: flush the prologue through an empty `write` when nothing
was written, and emit the chunked terminator. -/
def Task.finish (t : Task) : Except String Task :=
  match (if t.wrote_header = false then t.write [] else Except.ok t) with
  | Except.error e => Except.error e
  | Except.ok t1 =>
    if t1.chunked_response then
      Except.ok { t1 with channel_writes := t1.channel_writes ++ [strBytes "0\r\n\r\n"] }
    else Except.ok t1

/-! ## `WSGITask.execute`: `start_response` -/

/-- Is an `Except` an error? -/
def isErr {ε α : Type} : Except ε α → Bool
  | Except.error _ => true
  | Except.ok _ => false

/-- The hop-by-hop header names forbidden to WSGI applications. -/
def hopByHop : List String :=
  ["connection", "keep-alive", "proxy-authenticate", "proxy-authorization",
   "te", "trailers", "transfer-encoding", "upgrade"]

/-- The per-header body of the `start_response` validation loop: type checks,
CR/LF checks, `content-length` capture (including the `int(v)` conversion,
which raises on a non-numeric value) and the hop-by-hop rejection. -/
def processHeader (t : Task) (h : PyVal × PyVal) : Except String Task :=
  match h.1 with
  | PyVal.pystr k =>
    match h.2 with
    | PyVal.pystr v =>
      if containsCRLF v then
        Except.error "ValueError: carriage return/line feed character present in header value"
      else if containsCRLF k then
        Except.error "ValueError: carriage return/line feed character present in header name"
      else
        let kl := pyLower k
        if kl = "content-length" then
          match pyInt v with
          | some n => Except.ok { t with content_length := some n }
          | none => Except.error "ValueError: invalid literal for int with base 10"
        else if kl ∈ hopByHop then
          Except.error "AssertionError: hop-by-hop header cannot be used by a WSGI application"
        else Except.ok t
    | _ => Except.error "AssertionError: Header value is not a string"
  | _ => Except.error "AssertionError: Header name is not a string"

/-- The whole `for k, v in headers` loop of `start_response`. -/
def processHeaders (t : Task) : List (PyVal × PyVal) → Except String Task
  | [] => Except.ok t
  | h :: hs =>
    match processHeader t h with
    | Except.error e => Except.error e
    | Except.ok t1 => processHeaders t1 hs

/-- `self.response_headers.extend(headers)` (header pairs as strings). -/
def headersAsStrings (hs : List (PyVal × PyVal)) : List Header :=
  hs.map (fun h => (pyStr h.1, pyStr h.2))

/-- The part of `start_response` after the completeness and `exc_info`
guards: record `complete`, validate and record the status, run the header
loop, then extend `response_headers`. -/
def start_response_main (t1 : Task) (status : PyVal)
    (headers : List (PyVal × PyVal)) : Except String Task :=
  match status with
  | PyVal.pystr s =>
    if containsCRLF s then
      Except.error "ValueError: carriage return/line feed character present in status"
    else
      match processHeaders { t1 with status := s } headers with
      | Except.error e => Except.error e
      | Except.ok t3 =>
        Except.ok { t3 with response_headers := t3.response_headers ++ headersAsStrings headers }
  | _ => Except.error "AssertionError: status is not a string"

/-- The `start_response` callable defined inside `WSGITask.execute`.  A `true`
`exc_info` argument stands for a supplied (non-`None`) exception triple; on
success the code returns `self.write`, which is not modelled as a value. -/
def start_response (t : Task) (status : PyVal) (headers : List (PyVal × PyVal))
    (exc_info : Bool) : Except String Task :=
  if t.complete = true ∧ exc_info = false then
    Except.error "AssertionError: start_response called a second time without providing exc_info."
  else if exc_info = true ∧ t.wrote_header = true then
    Except.error "reraise"
  else
    let t0 := if exc_info = true then { t with response_headers := [] } else t
    start_response_main { t0 with complete := true } status headers

/-! Error conditions named by the `start_response` contract (C6). -/

/-- C6 (a): the task is already complete and `exc_info` is not supplied. -/
def condA (t : Task) (exc_info : Bool) : Bool := t.complete && !exc_info

/-- C6 (b): `exc_info` is supplied after the header has been flushed. -/
def condB (t : Task) (exc_info : Bool) : Bool := exc_info && t.wrote_header

/-- The status is not a textual string or contains CR or LF. -/
def statusBad (status : PyVal) : Bool :=
  !(isPyStr status) || containsCRLF (pyStr status)

/-- A header name or value is not a textual string or contains CR or LF. -/
def headerBadBasic (h : PyVal × PyVal) : Bool :=
  !(isPyStr h.1) || !(isPyStr h.2) || containsCRLF (pyStr h.2) || containsCRLF (pyStr h.1)

/-- C6 (c): the status or some header name or value is not textual or has CR/LF. -/
def condC (status : PyVal) (headers : List (PyVal × PyVal)) : Bool :=
  statusBad status || headers.any headerBadBasic

/-- A header whose lower-cased name is in the hop-by-hop set. -/
def isHopByHopHeader (h : PyVal × PyVal) : Bool :=
  match h.1 with
  | PyVal.pystr k => decide (pyLower k ∈ hopByHop)
  | _ => false

/-- C6 (d): some header is hop-by-hop. -/
def condD (headers : List (PyVal × PyVal)) : Bool :=
  headers.any isHopByHopHeader

/-- A `Content-Length` header whose value `int()` cannot parse. -/
def badContentLength (h : PyVal × PyVal) : Bool :=
  match h.1, h.2 with
  | PyVal.pystr k, PyVal.pystr v => pyLower k = "content-length" && (pyInt v).isNone
  | _, _ => false

/-- C6 (e) — the condition the claim omits: some `content-length` header has
a value `int()` rejects. -/
def condE (headers : List (PyVal × PyVal)) : Bool :=
  headers.any badContentLength

/-! ## `WSGITask.execute`: the application-iterable loop -/

/-- The post-iteration content-length check of `WSGITask.execute`
(lines 495-507): on a shortfall force `close_on_finish`, and log the
too-few-bytes warning only when the method is not `HEAD`. -/
def executePostIter (t : Task) : Task :=
  match t.content_length with
  | some cl =>
    if t.content_bytes_written ≠ cl then
      let t1 := { t with close_on_finish := true }
      if t.requestCommand ≠ "HEAD" then { t1 with log := t1.log ++ ["too_few_bytes"] }
      else t1
    else t
  | none => t

/-- `for chunk in app_iter: if chunk: self.write(chunk)`. -/
def writeChunks (t : Task) : List Bytes → Except String Task
  | [] => Except.ok t
  | c :: cs =>
    match (if c ≠ [] then t.write c else Except.ok t) with
    | Except.error e => Except.error e
    | Except.ok t1 => writeChunks t1 cs

/-- The generic-iterable path of `WSGITask.execute` for a list-like
application iterable: synthesise `content_length` from a one-chunk iterable,
forward the non-empty chunks through `write`, then run the post-iteration
check. -/
def executeAppIter (t : Task) (chunks : List Bytes) : Except String Task :=
  let t0 :=
    match chunks with
    | [] => t
    | c :: _ =>
      if t.content_length = none ∧ chunks.length = 1 then
        { t with content_length := some (c.length : Int) }
      else t
  match writeChunks t0 chunks with
  | Except.error e => Except.error e
  | Except.ok t1 => Except.ok (executePostIter t1)

/-! ## `WSGITask.parse_proxy_headers`: the `Forwarded` header -/

/-- The `_undquote` helper: strip whitespace and then surrounding double
quotes, but only when the value contains a quote at all. -/
def undquote (myval : String) : String :=
  if pyHasChar '"' myval then pyStripChars (fun c => c = '"') (pyStrip myval)
  else myval

/-- `s.split('=', 1)[1]`; the missing-separator case raises `IndexError`. -/
def splitEqSecond (s : String) : Except String String :=
  match pySplit1 '=' s with
  | [_, v] => Except.ok v
  | _ => Except.error "IndexError: list index out of range"

/-- The result of parsing a `Forwarded` header value. -/
structure ForwardedInfo where
  client_addr : Option String
  forwarded_for : List String
  forwarded_by : Option String
  forwarded_host : Option String
  forwarded_proto : Option String
deriving DecidableEq

/-- The inner `for for_param in parameter.split(',')` loop.  Note the source
appends `_undquote(parameter.split('=', 1)[1])` — a value computed from the
whole parameter — once per hop, instead of unquoting the hop itself. -/
def forHopsLoop (parameter : String) : List String → Except String (List String)
  | [] => Except.ok []
  | hop :: rest =>
    let hop1 := pyStrip hop
    if pyStartsWith "for" hop1 = false then
      Except.error "ValueError: Invalid Forwarded For parameter provided."
    else
      match splitEqSecond parameter with
      | Except.error e => Except.error e
      | Except.ok v =>
        match forHopsLoop parameter rest with
        | Except.error e => Except.error e
        | Except.ok vs => Except.ok (undquote v :: vs)

/-- One iteration of `for parameter in forwarded.split(';')`: the stripped,
lower-cased parameter is matched against `by`, `for`, `host` and `proto`. -/
def forwardedParamStep (st : ForwardedInfo) (param : String) :
    Except String ForwardedInfo :=
  let p := pyLower (pyStrip param)
  match (if pyStartsWith "by" p then
          match splitEqSecond p with
          | Except.error e => Except.error e
          | Except.ok v => Except.ok { st with forwarded_by := some (undquote v) }
        else Except.ok st) with
  | Except.error e => Except.error e
  | Except.ok st1 =>
    match (if pyStartsWith "for" p then
            match forHopsLoop p (pySplit ',' p) with
            | Except.error e => Except.error e
            | Except.ok [] => Except.error "IndexError: list index out of range"
            | Except.ok (c :: rest) =>
              Except.ok { st1 with client_addr := some c, forwarded_for := rest }
          else Except.ok st1) with
    | Except.error e => Except.error e
    | Except.ok st2 =>
      match (if pyStartsWith "host" p then
              match splitEqSecond p with
              | Except.error e => Except.error e
              | Except.ok v => Except.ok { st2 with forwarded_host := some (undquote v) }
            else Except.ok st2) with
      | Except.error e => Except.error e
      | Except.ok st3 =>
        if pyStartsWith "proto" p then
          match splitEqSecond p with
          | Except.error e => Except.error e
          | Except.ok v => Except.ok { st3 with forwarded_proto := some (pyStrip v) }
        else Except.ok st3

/-- The parameter loop driver. -/
def forwardedLoop (st : ForwardedInfo) : List String → Except String ForwardedInfo
  | [] => Except.ok st
  | p :: ps =>
    match forwardedParamStep st p with
    | Except.error e => Except.error e
    | Except.ok st1 => forwardedLoop st1 ps

/-- The `Forwarded`-header parsing section of `parse_proxy_headers`. -/
def parseForwarded (forwarded : String) : Except String ForwardedInfo :=
  forwardedLoop ⟨none, [], none, none, none⟩ (pySplit ';' forwarded)

/-! ## `ThreadedTaskDispatcher` -/

/-- Dispatcher state: the registered worker identities, the `stop_count`
counter and the FIFO queue, where `none` is the kill-thread sentinel and
`some ()` an ordinary task. -/
structure Dispatcher where
  threads : List Nat
  stop_count : Int
  queue : List (Option Unit)
deriving DecidableEq

/-- A freshly constructed dispatcher. -/
def newDispatcher : Dispatcher := ⟨[], 0, []⟩

/-- The `while thread_no in threads: thread_no += 1` scan (fuelled; the fuel
`threads.length + 1` always suffices). -/
def nextFree (ts : List Nat) : Nat → Nat → Nat
  | n, 0 => n
  | n, fuel + 1 => if ts.contains n then nextFree ts (n + 1) fuel else n

/-- The growth loop of `set_thread_count`: start `k` workers with the lowest
unused identities, scanning upward from `start`. -/
def addThreads : List Nat → Nat → Nat → List Nat
  | ts, _, 0 => ts
  | ts, start, k + 1 =>
    let n := nextFree ts start (ts.length + 1)
    addThreads (ts ++ [n]) (n + 1) k

/-- `ThreadedTaskDispatcher.set_thread_count`: grow to `count`, or push
`running - count` sentinels and add the same amount to `stop_count`. -/
def set_thread_count (d : Dispatcher) (count : Nat) : Dispatcher :=
  let running : Int := (d.threads.length : Int) - d.stop_count
  let toAdd : Nat := ((count : Int) - running).toNat
  let threads1 := addThreads d.threads 0 toAdd
  let running1 : Int := running + (toAdd : Int)
  if running1 > (count : Int) then
    let to_stop : Nat := (running1 - (count : Int)).toNat
    { threads := threads1
    , stop_count := d.stop_count + (to_stop : Int)
    , queue := d.queue ++ List.replicate to_stop none }
  else { threads := threads1, stop_count := d.stop_count, queue := d.queue }

/-- `ThreadedTaskDispatcher.add_task` (the enqueue; `defer` is a no-op). -/
def add_task (d : Dispatcher) : Dispatcher :=
  { d with queue := d.queue ++ [some ()] }

/-- The `finally` block of `handler_thread`: decrement `stop_count` (with no
lower bound in the source) and deregister the identity; `q` is the queue
left after the worker's dequeue. -/
def workerExit (d : Dispatcher) (tno : Nat) (q : List (Option Unit)) : Dispatcher :=
  { threads := d.threads.erase tno, stop_count := d.stop_count - 1, queue := q }

/-- The dispatcher transitions: `set_thread_count`, `add_task`, a worker
servicing a task normally, a worker dequeuing the sentinel and exiting, and
a worker exiting because `service` raised the `JustTesting` test error. -/
inductive DStep : Dispatcher → Dispatcher → Prop where
  | setCount (d : Dispatcher) (n : Nat) : DStep d (set_thread_count d n)
  | addTask (d : Dispatcher) : DStep d (add_task d)
  | serviceTask (d : Dispatcher) (q : List (Option Unit)) :
      d.queue = some () :: q → DStep d { d with queue := q }
  | sentinelExit (d : Dispatcher) (q : List (Option Unit)) (tno : Nat) :
      d.queue = none :: q → DStep d (workerExit d tno q)
  | testSentinelExit (d : Dispatcher) (q : List (Option Unit)) (tno : Nat) :
      d.queue = some () :: q → DStep d (workerExit d tno q)

/-- The transitions with every worker exit a sentinel exit (no `JustTesting`). -/
inductive SafeDStep : Dispatcher → Dispatcher → Prop where
  | setCount (d : Dispatcher) (n : Nat) : SafeDStep d (set_thread_count d n)
  | addTask (d : Dispatcher) : SafeDStep d (add_task d)
  | serviceTask (d : Dispatcher) (q : List (Option Unit)) :
      d.queue = some () :: q → SafeDStep d { d with queue := q }
  | sentinelExit (d : Dispatcher) (q : List (Option Unit)) (tno : Nat) :
      d.queue = none :: q → SafeDStep d (workerExit d tno q)

/-- States reachable from a fresh dispatcher by any transition. -/
inductive DReachable : Dispatcher → Prop where
  | start : DReachable newDispatcher
  | step (d d2 : Dispatcher) : DReachable d → DStep d d2 → DReachable d2

/-- States reachable from a fresh dispatcher with only sentinel worker exits. -/
inductive SafeDReachable : Dispatcher → Prop where
  | start : SafeDReachable newDispatcher
  | step (d d2 : Dispatcher) : SafeDReachable d → SafeDStep d d2 → SafeDReachable d2

/-- The number of sentinels in the queue. -/
def sentinelCount (q : List (Option Unit)) : Nat :=
  q.countP (fun x => x.isNone)

/-! ## Concrete states used by counterexamples and witnesses -/

/-- A freshly constructed HTTP/1.1 GET task (header date rendered `"DATE"`). -/
def sample11 : Task := Task.init "1.1" "" "GET" "waitress" "DATE"

/-- The C1 scenario: HTTP/1.1, request `Connection` absent, application
headers without `Content-Length`, body-permitting status. -/
def c1Task : Task :=
  { sample11 with complete := true, response_headers := [("Content-Type", "text/plain")] }

/-- The C2 scenario: HEAD request with `Content-Length: 10` declared and an
exhausted empty application iterable. -/
def c2Task : Task :=
  { Task.init "1.1" "" "HEAD" "waitress" "DATE" with
    complete := true, content_length := some 10 }

/-! ## Lemmas about the gather loop -/

theorem gatherStep_clh_cch (hasBody : Bool) (st : GatherState) (h : Header)
    (h1 : canonName h.1 ≠ "Content-Length") (h2 : canonName h.1 ≠ "Connection") :
    (gatherStep hasBody st h).clh = st.clh ∧ (gatherStep hasBody st h).cch = st.cch := by
  have hA : ¬(canonName h.1 = "Content-Length" ∧ hasBody = false) := fun hc => h1 hc.1
  simp only [gatherStep, if_neg hA, if_neg h1, if_neg h2]
  split <;> split <;> exact ⟨rfl, rfl⟩

theorem gather_clh_cch (hasBody : Bool) (hs : List Header) (st : GatherState)
    (hCL : ∀ h ∈ hs, canonName h.1 ≠ "Content-Length")
    (hC : ∀ h ∈ hs, canonName h.1 ≠ "Connection") :
    (hs.foldl (gatherStep hasBody) st).clh = st.clh
    ∧ (hs.foldl (gatherStep hasBody) st).cch = st.cch := by
  induction hs generalizing st with
  | nil => exact ⟨rfl, rfl⟩
  | cons h tl ih =>
    have hstep := gatherStep_clh_cch hasBody st h
      (hCL h (List.mem_cons_self h tl)) (hC h (List.mem_cons_self h tl))
    have htl := ih (gatherStep hasBody st h)
      (fun x hx => hCL x (List.mem_cons_of_mem h hx))
      (fun x hx => hC x (List.mem_cons_of_mem h hx))
    simp only [List.foldl_cons]
    exact ⟨htl.1.trans hstep.1, htl.2.trans hstep.2⟩

end Waitress

namespace Waitress

/-- C8: `asbool(x)` is true iff `x` is the boolean `True` or the stripped,
lower-cased textual form of `x` is in `truthy`; `asbool(None)` and
`asbool(False)` are false and booleans pass through unchanged. -/
theorem asbool_spec (x : PyVal) :
    (asbool x = true ↔
      (x = PyVal.pybool true ∨ truthy.contains (pyLower (pyStrip (pyStr x))) = true))
    ∧ asbool PyVal.pynone = false
    ∧ (∀ b : Bool, asbool (PyVal.pybool b) = b) := by
  refine ⟨?_, rfl, fun b => rfl⟩
  cases x with
  | pynone =>
    simp only [asbool]
    constructor
    · intro h; exact absurd h (by decide)
    · rintro (h | h)
      · exact absurd h (by decide)
      · exact absurd h (by decide)
  | pybool b =>
    cases b with
    | true => exact ⟨fun _ => Or.inl rfl, fun _ => rfl⟩
    | false =>
      simp only [asbool]
      constructor
      · intro h; exact absurd h (by decide)
      · rintro (h | h)
        · exact absurd h (by decide)
        · exact absurd h (by decide)
  | pystr s =>
    simp only [asbool]
    exact ⟨fun h => Or.inr h, fun h => h.elim (fun h => by cases h) id⟩
  | pyint i =>
    simp only [asbool]
    exact ⟨fun h => Or.inr h, fun h => h.elim (fun h => by cases h) id⟩

/-! ## C1: HTTP/1.1 response without a Content-Length -/

theorem mem_serverDateHeaders (t : Task) (g : GatherState) (hs : List Header)
    (x : Header) (hx : x ∈ hs) : x ∈ serverDateHeaders t g hs := by
  unfold serverDateHeaders
  split <;> split <;> simp [List.mem_append, hx] <;> split <;> simp [List.mem_append, hx]

/-- C1 (counterexample): for the HTTP/1.1 task with no request `Connection`
header, a body-permitting status and no application `Content-Length`,
`build_response_header` adds `Transfer-Encoding: chunked` and sets
`chunked_response`, but — contrary to the claim — it also sets
`close_on_finish` and appends `Connection: close`. -/
theorem C1_counterexample :
    (build_response_header c1Task).toOption.map
        (fun r => (r.close_on_finish, r.chunked_response, r.response_headers))
      = some (true, true,
          [("Content-Type", "text/plain"), ("Transfer-Encoding", "chunked"),
           ("Connection", "close"), ("Server", "waitress"), ("Date", "DATE")]) := by
  decide

/-- C1 (amended): for every task with version `1.1` whose request
`Connection` header is not `close` and whose application supplied neither a
`Content-Length` nor a `Connection` header, when the status permits a body,
`build_response_header` adds `Transfer-Encoding: chunked` and sets
`chunked_response`, but it does not keep the connection open: it also sets
`close_on_finish` and appends `Connection: close`. -/
theorem C1_amended (t : Task)
    (hv : t.version = "1.1")
    (hconn : pyLower t.requestConnection ≠ "close")
    (hnoCL : ∀ h ∈ t.response_headers, canonName h.1 ≠ "Content-Length")
    (hnoConn : ∀ h ∈ t.response_headers, canonName h.1 ≠ "Connection")
    (hcl : t.content_length = none)
    (hbody : t.has_body = true)
    (hcof : t.close_on_finish = false) :
    ∃ r, build_response_header t = Except.ok r
      ∧ r.chunked_response = true
      ∧ ("Transfer-Encoding", "chunked") ∈ r.response_headers
      ∧ r.close_on_finish = true
      ∧ ("Connection", "close") ∈ r.response_headers := by
  obtain ⟨hclh, hcch⟩ := gather_clh_cch t.has_body t.response_headers
    ⟨[], none, none, none, none⟩ hnoCL hnoConn
  rw [hbody] at hclh hcch
  have h10 : (t.version = "1.0") = False := by simp [hv]
  have h11 : (t.version = "1.1") = True := by simp [hv]
  have hconn2 : (pyLower t.requestConnection = "close") = False := eq_false hconn
  simp only [build_response_header, h10, h11, if_false, if_true, hclh, hcch, hcl,
    hbody, hcof, dispatch11, closeOnFinishFn, truthyStrOpt, hconn2]
  refine ⟨_, rfl, rfl, ?_, rfl, ?_⟩
  · exact mem_serverDateHeaders _ _ _ _ (by simp [List.mem_append])
  · exact mem_serverDateHeaders _ _ _ _ (by simp [List.mem_append])

/-- C1 (witness for the amended claim at the concrete C1 scenario). -/
theorem C1_amended_witness :
    ∃ r, build_response_header c1Task = Except.ok r
      ∧ r.chunked_response = true
      ∧ ("Transfer-Encoding", "chunked") ∈ r.response_headers
      ∧ r.close_on_finish = true
      ∧ ("Connection", "close") ∈ r.response_headers :=
  C1_amended c1Task rfl (by decide) (by decide) (by decide) rfl (by decide) rfl

/-! ## C2: too-few-bytes handling for HEAD -/

/-- C2 (counterexample): a HEAD task with `Content-Length: 10` declared and
an empty application iterable: `execute` exits with `close_on_finish = true`
(the claim says it stays unset) even though no warning is logged. -/
theorem C2_counterexample :
    (executeAppIter c2Task []).toOption.map (fun t => (t.close_on_finish, t.log))
      = some (true, []) := by
  decide

/-- C2 (amended): when a content length was declared but the bytes written
differ, the post-iteration check of `execute` always sets
`close_on_finish`; for a HEAD request it changes nothing else — in
particular it logs no too-few-bytes warning. -/
theorem C2_amended (t : Task) (cl : Int)
    (hcmd : t.requestCommand = "HEAD")
    (hcl : t.content_length = some cl)
    (hne : t.content_bytes_written ≠ cl) :
    executePostIter t = { t with close_on_finish := true } := by
  simp [executePostIter, hcl, hne, hcmd]

/-- C2 (witness for the amended claim at the concrete HEAD scenario). -/
theorem C2_amended_witness :
    executePostIter c2Task = { c2Task with close_on_finish := true } :=
  C2_amended c2Task 10 rfl rfl (by decide)

/-! ## C3: the `Forwarded` `for` parameter -/

/-- C3 (code bug): on the two-hop header `for=192.0.2.1, for=198.51.100.2`
the source re-uses `parameter.split('=', 1)[1]` — the text after the first
`=` of the whole parameter — for every hop, so the client address becomes
`192.0.2.1, for=198.51.100.2` and the chain repeats that same value,
instead of the per-hop values `192.0.2.1` and `198.51.100.2` the
specification describes. -/
theorem C3_forwarded_for_defect :
    (parseForwarded "for=192.0.2.1, for=198.51.100.2").toOption
      = some ⟨some "192.0.2.1, for=198.51.100.2",
          ["192.0.2.1, for=198.51.100.2"], none, none, none⟩ := by
  decide

/-! ## C5 and C10: the `write` accounting -/

theorem pySlicePrefix_nil (k : Int) : pySlicePrefix [] k = [] := by
  unfold pySlicePrefix; split <;> simp

theorem pySlicePrefix_length_le (data : Bytes) (k : Int) (hk : 0 ≤ k) :
    ((pySlicePrefix data k).length : Int) ≤ k := by
  unfold pySlicePrefix
  rw [if_neg (not_lt.mpr hk)]
  rw [List.length_take]
  have h2 : (k.toNat : Int) = k := Int.toNat_of_nonneg hk
  have h3 : min k.toNat data.length ≤ k.toNat := Nat.min_le_left _ _
  omega

theorem flushTowrite_written (p : Task × Bytes) :
    (flushTowrite p).content_bytes_written = p.1.content_bytes_written := by
  unfold flushTowrite; split <;> rfl

theorem flushTowrite_latch (p : Task × Bytes) :
    (flushTowrite p).logged_write_excess = p.1.logged_write_excess := by
  unfold flushTowrite; split <;> rfl

theorem flushTowrite_channel (p : Task × Bytes) :
    (flushTowrite p).channel_writes
      = p.1.channel_writes ++ (if p.2 = [] then [] else [p.2]) := by
  unfold flushTowrite
  by_cases h : p.2 = []
  · rw [if_neg (not_not_intro h), if_pos h, List.append_nil]
  · rw [if_pos h, if_neg h]

theorem writeBodyCL_fst_written (t1 : Task) (data : Bytes) (cl : Int) :
    (writeBodyCL t1 data cl).1.content_bytes_written
      = t1.content_bytes_written
        + ((pySlicePrefix data (cl - t1.content_bytes_written)).length : Int) := by
  unfold writeBodyCL; dsimp only; split <;> rfl

theorem writeBodyCL_snd (t1 : Task) (data : Bytes) (cl : Int) :
    (writeBodyCL t1 data cl).2
      = pySlicePrefix data (cl - t1.content_bytes_written) := rfl

theorem writeBodyCL_fst_channel (t1 : Task) (data : Bytes) (cl : Int) :
    (writeBodyCL t1 data cl).1.channel_writes = t1.channel_writes := by
  unfold writeBodyCL; dsimp only; split <;> rfl

theorem writeBodyCL_fst_latch (t1 : Task) (data : Bytes) (cl : Int) :
    (writeBodyCL t1 data cl).1.logged_write_excess
      = (t1.logged_write_excess
          || decide (pySlicePrefix data (cl - t1.content_bytes_written) ≠ data)) := by
  unfold writeBodyCL
  dsimp only
  split
  · rename_i h
    dsimp only
    simp [h.1, h.2]
  · rename_i h
    by_cases hne : pySlicePrefix data (cl - t1.content_bytes_written) = data
    · simp [hne]
    · have hlatch : t1.logged_write_excess = true := by
        by_contra hlf
        exact h ⟨hne, by revert hlf; cases t1.logged_write_excess <;> simp⟩
      simp [hlatch]

/-- `writeBody` preserves the content-length budget on every branch. -/
theorem writeBody_written_le (t1 : Task) (data : Bytes) (cl : Int)
    (hcl : t1.content_length = some cl)
    (hb : t1.has_body = true)
    (hw : t1.content_bytes_written ≤ cl) :
    (writeBody t1 data).content_bytes_written ≤ cl := by
  unfold writeBody
  by_cases hd : data = []
  · subst hd
    rw [if_neg (by simp)]
    dsimp only
    split <;> dsimp only <;> simpa using hw
  · rw [if_pos ⟨hd, hb⟩, flushTowrite_written]
    by_cases hch : t1.chunked_response = true
    · rw [if_pos hch]
      exact hw
    · rw [if_neg hch, hcl]
      dsimp only
      rw [writeBodyCL_fst_written]
      have hlen := pySlicePrefix_length_le data (cl - t1.content_bytes_written) (by omega)
      omega

/-- The truncation equations of the content-length branch of `writeBody`. -/
theorem writeBody_cl_eq (t1 : Task) (data : Bytes) (cl : Int)
    (hcl : t1.content_length = some cl)
    (hch : t1.chunked_response = false)
    (hb : t1.has_body = true) :
    (writeBody t1 data).content_bytes_written
      = t1.content_bytes_written
        + ((pySlicePrefix data (cl - t1.content_bytes_written)).length : Int)
    ∧ (writeBody t1 data).channel_writes
      = t1.channel_writes
        ++ (if pySlicePrefix data (cl - t1.content_bytes_written) = [] then []
            else [pySlicePrefix data (cl - t1.content_bytes_written)])
    ∧ (writeBody t1 data).logged_write_excess
      = (t1.logged_write_excess
          || decide (pySlicePrefix data (cl - t1.content_bytes_written) ≠ data)) := by
  unfold writeBody
  by_cases hd : data = []
  · subst hd
    rw [if_neg (by simp)]
    dsimp only
    rw [pySlicePrefix_nil]
    split <;> dsimp only <;> exact ⟨by simp, by simp, by simp⟩
  · rw [if_pos ⟨hd, hb⟩, if_neg (by simp [hch]), hcl]
    dsimp only
    rw [flushTowrite_written, flushTowrite_channel, flushTowrite_latch,
      writeBodyCL_fst_written, writeBodyCL_fst_channel, writeBodyCL_fst_latch,
      writeBodyCL_snd]
    exact ⟨rfl, rfl, rfl⟩

/-- `writeBody` on empty data: nothing is counted, nothing reaches the
channel, and the one-shot no-body warning is latched (and logged when it was
not latched yet). -/
theorem writeBody_empty (t1 : Task) :
    (writeBody t1 []).content_bytes_written = t1.content_bytes_written
    ∧ (writeBody t1 []).logged_write_no_body = true
    ∧ (t1.logged_write_no_body = false →
        (writeBody t1 []).log = t1.log ++ ["write_no_body"])
    ∧ (writeBody t1 []).channel_writes = t1.channel_writes := by
  unfold writeBody
  rw [if_neg (by simp)]
  dsimp only
  split
  · dsimp only
    refine ⟨by simp, rfl, fun _ => rfl, rfl⟩
  · rename_i h
    dsimp only
    refine ⟨by simp, by revert h; cases t1.logged_write_no_body <;> simp, ?_, rfl⟩
    intro hl
    rw [hl] at h
    exact absurd rfl h

/-- Reduce a successful `Task.write` call to `writeBody` applied to the
post-prologue task, and record how that task relates to the input. -/
theorem write_ok_destruct (t t2 : Task) (data : Bytes)
    (hok : t.write data = Except.ok t2) :
    ∃ t1 : Task, t2 = writeBody t1 data
      ∧ t1.content_length = t.content_length
      ∧ t1.status = t.status
      ∧ t1.content_bytes_written = t.content_bytes_written
      ∧ t1.logged_write_excess = t.logged_write_excess
      ∧ t1.logged_write_no_body = t.logged_write_no_body
      ∧ t1.log = t.log
      ∧ (t.wrote_header = true →
          t1 = t)
      ∧ (t.wrote_header = false →
          ∃ pr, t1.channel_writes = t.channel_writes ++ [pr]) := by
  unfold Task.write at hok
  by_cases hcompl : t.complete = false
  · rw [if_pos hcompl] at hok
    exact absurd hok (by simp)
  · rw [if_neg hcompl] at hok
    by_cases hwh : t.wrote_header = false
    · rw [if_pos hwh] at hok
      cases hbrh : build_response_header t with
      | error e =>
        rw [hbrh] at hok
        exact absurd hok (by simp)
      | ok r =>
        rw [hbrh] at hok
        dsimp only at hok
        refine ⟨_, (Except.ok.inj hok).symm, rfl, rfl, rfl, rfl, rfl, rfl, ?_, ?_⟩
        · intro h
          exact absurd (hwh.symm.trans h) (by decide)
        · intro _
          exact ⟨strBytes r.bytes, rfl⟩
    · rw [if_neg hwh] at hok
      dsimp only at hok
      refine ⟨t, (Except.ok.inj hok).symm, rfl, rfl, rfl, rfl, rfl, rfl,
        fun _ => rfl, ?_⟩
      intro h
      exact absurd h hwh

/-- C5: with a content length set, a body-permitting status and the budget
invariant holding before the call, every successful `write` keeps
`content_bytes_written ≤ content_length`; after the prologue has been
flushed (and the response is not chunked) the data handed to the channel is
exactly the prefix fitting the remaining budget, the counter advances by
its length, and the one-shot excess warning latches exactly when the data
was truncated. -/
theorem C5_content_length_budget (t t2 : Task) (data : Bytes) (cl : Int)
    (hcl : t.content_length = some cl)
    (hb : t.has_body = true)
    (hw : t.content_bytes_written ≤ cl)
    (hok : t.write data = Except.ok t2) :
    t2.content_bytes_written ≤ cl
    ∧ (t.wrote_header = true → t.chunked_response = false →
        t2.content_bytes_written = t.content_bytes_written
          + ((pySlicePrefix data (cl - t.content_bytes_written)).length : Int)
        ∧ t2.channel_writes = t.channel_writes
          ++ (if pySlicePrefix data (cl - t.content_bytes_written) = [] then []
              else [pySlicePrefix data (cl - t.content_bytes_written)])
        ∧ t2.logged_write_excess
          = (t.logged_write_excess
              || decide (pySlicePrefix data (cl - t.content_bytes_written) ≠ data))) := by
  obtain ⟨t1, ht2, hcl1, hst1, hcbw1, hlex1, hlnb1, hlog1, hwht, hwhf⟩ :=
    write_ok_destruct t t2 data hok
  have hb1 : t1.has_body = true := by
    unfold Task.has_body at hb ⊢
    rw [hst1]
    exact hb
  constructor
  · rw [ht2]
    exact writeBody_written_le t1 data cl (hcl1.trans hcl) hb1 (hcbw1 ▸ hw)
  · intro hwh hch
    have ht1 : t1 = t := hwht hwh
    subst ht1
    rw [ht2]
    exact writeBody_cl_eq t1 data cl hcl hch hb

/-- The C5 witness task: prologue already flushed, `Content-Length: 5`. -/
def c5Task : Task :=
  { sample11 with complete := true, wrote_header := true, content_length := some 5 }

/-- C5 (witness): writing seven bytes against a budget of five. -/
theorem C5_witness :
    ∃ t2, c5Task.write [97, 98, 99, 100, 101, 102, 103] = Except.ok t2
      ∧ t2.content_bytes_written ≤ 5 := by
  refine ⟨_, rfl, ?_⟩
  exact (C5_content_length_budget c5Task _ _ 5 rfl (by decide) (by decide) rfl).1

/-- C10: for every complete task with a body-permitting status, a `write`
with empty data counts nothing, hands no body bytes to the channel (only
the prologue, on a first call), yet latches the `logged_write_no_body`
warning and logs the may-not-contain-a-message-body warning when the latch
was clear. -/
theorem C10_empty_write (t t2 : Task)
    (hc : t.complete = true)
    (hb : t.has_body = true)
    (hok : t.write [] = Except.ok t2) :
    t2.content_bytes_written = t.content_bytes_written
    ∧ t2.logged_write_no_body = true
    ∧ (t.logged_write_no_body = false → t2.log = t.log ++ ["write_no_body"])
    ∧ (t.wrote_header = true → t2.channel_writes = t.channel_writes)
    ∧ (t.wrote_header = false → ∃ pr, t2.channel_writes = t.channel_writes ++ [pr]) := by
  obtain ⟨t1, ht2, hcl1, hst1, hcbw1, hlex1, hlnb1, hlog1, hwht, hwhf⟩ :=
    write_ok_destruct t t2 [] hok
  obtain ⟨he1, he2, he3, he4⟩ := writeBody_empty t1
  refine ⟨?_, ?_, ?_, ?_, ?_⟩
  · rw [ht2, he1, hcbw1]
  · rw [ht2, he2]
  · intro hl
    rw [ht2, he3 (hlnb1.trans hl), hlog1]
  · intro hwh
    rw [ht2, he4, hwht hwh]
  · intro hwh
    obtain ⟨pr, hpr⟩ := hwhf hwh
    exact ⟨pr, by rw [ht2, he4, hpr]⟩

/-- The C10 witness task: a fresh complete HTTP/1.1 task. -/
def c10Task : Task := { sample11 with complete := true }

/-- C10 (witness): the empty write of `finish` on a fresh complete task. -/
theorem C10_witness :
    ∃ t2, c10Task.write [] = Except.ok t2
      ∧ t2.content_bytes_written = c10Task.content_bytes_written
      ∧ t2.logged_write_no_body = true
      ∧ t2.log = c10Task.log ++ ["write_no_body"] := by
  refine ⟨_, rfl, ?_⟩
  have h := C10_empty_write c10Task _ rfl (by decide) rfl
  exact ⟨h.1, h.2.1, h.2.2.1 rfl⟩

/-! ## C4: the `stop_count` counter -/

theorem sentinelCount_append (q1 q2 : List (Option Unit)) :
    sentinelCount (q1 ++ q2) = sentinelCount q1 + sentinelCount q2 :=
  List.countP_append _ _ _

theorem sentinelCount_replicate_none (n : Nat) :
    sentinelCount (List.replicate n none) = n := by
  induction n with
  | zero => rfl
  | succ k ih => simp [List.replicate_succ, sentinelCount, List.countP_cons] at ih ⊢; omega

/-- Each sentinel-only dispatcher transition keeps `stop_count` equal to the
number of sentinels in the queue. -/
theorem safeDStep_inv (d d2 : Dispatcher) (h : SafeDStep d d2)
    (hinv : d.stop_count = (sentinelCount d.queue : Int)) :
    d2.stop_count = (sentinelCount d2.queue : Int) := by
  cases h with
  | setCount n =>
    unfold set_thread_count
    dsimp only
    split
    · dsimp only
      rw [sentinelCount_append, sentinelCount_replicate_none, hinv]
      push_cast
      ring
    · exact hinv
  | addTask =>
    unfold add_task
    dsimp only
    rw [sentinelCount_append, hinv]
    simp [sentinelCount, List.countP_cons]
  | serviceTask q hq =>
    dsimp only
    rw [hinv, hq]
    simp [sentinelCount, List.countP_cons]
  | sentinelExit q tno hq =>
    unfold workerExit
    dsimp only
    rw [hinv, hq]
    simp [sentinelCount, List.countP_cons]

/-- C4 (amended): as long as every worker exit is a sentinel exit (the only
exits `set_thread_count` schedules), `stop_count` equals the number of
queued sentinels, hence never goes negative; the source's decrement itself
is not bounded at zero. -/
theorem C4_amended (d : Dispatcher) (h : SafeDReachable d) :
    d.stop_count = (sentinelCount d.queue : Int) ∧ 0 ≤ d.stop_count := by
  have hinv : d.stop_count = (sentinelCount d.queue : Int) := by
    induction h with
    | start => rfl
    | step d d2 hr hs ih => exact safeDStep_inv d d2 hs ih
  exact ⟨hinv, hinv ▸ Int.ofNat_nonneg _⟩

/-- C4 (witness for the amended claim at the initial dispatcher). -/
theorem C4_amended_witness :
    newDispatcher.stop_count = (sentinelCount newDispatcher.queue : Int)
    ∧ 0 ≤ newDispatcher.stop_count :=
  C4_amended newDispatcher SafeDReachable.start

/-- The dispatcher state with a negative `stop_count` reached by the
counterexample trace. -/
def negDispatcher : Dispatcher := ⟨[], -1, []⟩

/-- C4 (counterexample): `stop_count ≥ 0` is not an invariant: grow the pool
to one worker, enqueue a task whose `service` raises `JustTesting`, and the
exiting worker's unbounded decrement drives `stop_count` to `-1`. -/
theorem C4_counterexample :
    DReachable negDispatcher ∧ negDispatcher.stop_count < 0 := by
  refine ⟨?_, by decide⟩
  have h0 : DReachable newDispatcher := DReachable.start
  have h1 := DReachable.step _ _ h0 (DStep.setCount newDispatcher 1)
  have h2 := DReachable.step _ _ h1 (DStep.addTask _)
  have hq : (add_task (set_thread_count newDispatcher 1)).queue = some () :: [] := by
    decide
  have h3 := DReachable.step _ _ h2 (DStep.testSentinelExit _ [] 0 hq)
  have he : workerExit (add_task (set_thread_count newDispatcher 1)) 0 [] = negDispatcher := by
    decide
  exact he ▸ h3

/-! ## C6: the `start_response` contract -/

theorem processHeader_err (t : Task) (h : PyVal × PyVal) :
    isErr (processHeader t h)
      = (headerBadBasic h || isHopByHopHeader h || badContentLength h) := by
  rcases h with ⟨k, v⟩
  cases k with
  | pystr k =>
    cases v with
    | pystr v =>
      simp only [processHeader]
      by_cases h1 : containsCRLF v = true
      · simp [h1, isErr, headerBadBasic, pyStr, isPyStr]
      · by_cases h2 : containsCRLF k = true
        · simp [h1, h2, isErr, headerBadBasic, pyStr, isPyStr]
        · by_cases h3 : pyLower k = "content-length"
          · have hhop : ("content-length" : String) ∉ hopByHop := by decide
            cases h4 : pyInt v with
            | some n =>
              simp [h1, h2, h3, h4, isErr, headerBadBasic, isHopByHopHeader,
                badContentLength, pyStr, isPyStr, hhop]
            | none =>
              simp [h1, h2, h3, h4, isErr, headerBadBasic, isHopByHopHeader,
                badContentLength, pyStr, isPyStr, hhop]
          · by_cases h5 : pyLower k ∈ hopByHop
            · simp [h1, h2, h3, h5, isErr, headerBadBasic, isHopByHopHeader,
                badContentLength, pyStr, isPyStr]
            · simp [h1, h2, h3, h5, isErr, headerBadBasic, isHopByHopHeader,
                badContentLength, pyStr, isPyStr]
    | pynone => simp [processHeader, isErr, headerBadBasic, isPyStr]
    | pybool b => simp [processHeader, isErr, headerBadBasic, isPyStr]
    | pyint i => simp [processHeader, isErr, headerBadBasic, isPyStr]
  | pynone => simp [processHeader, isErr, headerBadBasic, isPyStr]
  | pybool b => simp [processHeader, isErr, headerBadBasic, isPyStr]
  | pyint i => simp [processHeader, isErr, headerBadBasic, isPyStr]

/-- A header that makes the validation loop raise, for any of the reasons. -/
def headerBadAll (h : PyVal × PyVal) : Bool :=
  headerBadBasic h || isHopByHopHeader h || badContentLength h

theorem processHeaders_err (t : Task) (hs : List (PyVal × PyVal)) :
    isErr (processHeaders t hs) = hs.any headerBadAll := by
  induction hs generalizing t with
  | nil => rfl
  | cons h tl ih =>
    simp only [processHeaders, List.any_cons, headerBadAll]
    cases hpe : processHeader t h with
    | error e =>
      have hbad := processHeader_err t h
      rw [hpe] at hbad
      simp only [isErr] at hbad ⊢
      rw [← hbad, Bool.true_or]
    | ok t1 =>
      have hbad := processHeader_err t h
      rw [hpe] at hbad
      simp only [isErr] at hbad
      rw [← hbad, Bool.false_or]
      exact ih t1

theorem processHeader_ok_fields (t t1 : Task) (h : PyVal × PyVal)
    (hok : processHeader t h = Except.ok t1) :
    t1.response_headers = t.response_headers ∧ t1.status = t.status
    ∧ t1.complete = t.complete := by
  rcases h with ⟨k, v⟩
  cases k with
  | pystr k =>
    cases v with
    | pystr v =>
      simp only [processHeader] at hok
      by_cases h1 : containsCRLF v = true
      · rw [if_pos h1] at hok; cases hok
      · rw [if_neg h1] at hok
        by_cases h2 : containsCRLF k = true
        · rw [if_pos h2] at hok; cases hok
        · rw [if_neg h2] at hok
          by_cases h3 : pyLower k = "content-length"
          · rw [if_pos h3] at hok
            cases h4 : pyInt v with
            | some n => rw [h4] at hok; cases hok; exact ⟨rfl, rfl, rfl⟩
            | none => rw [h4] at hok; cases hok
          · rw [if_neg h3] at hok
            by_cases h5 : pyLower k ∈ hopByHop
            · rw [if_pos h5] at hok; cases hok
            · rw [if_neg h5] at hok; cases hok; exact ⟨rfl, rfl, rfl⟩
    | pynone => cases hok
    | pybool b => cases hok
    | pyint i => cases hok
  | pynone => cases hok
  | pybool b => cases hok
  | pyint i => cases hok

theorem processHeaders_ok_fields (t t1 : Task) (hs : List (PyVal × PyVal))
    (hok : processHeaders t hs = Except.ok t1) :
    t1.response_headers = t.response_headers ∧ t1.status = t.status
    ∧ t1.complete = t.complete := by
  induction hs generalizing t with
  | nil =>
    simp only [processHeaders] at hok
    cases hok
    exact ⟨rfl, rfl, rfl⟩
  | cons h tl ih =>
    simp only [processHeaders] at hok
    cases hpe : processHeader t h with
    | error e => rw [hpe] at hok; cases hok
    | ok tmid =>
      rw [hpe] at hok
      obtain ⟨hm1, hm2, hm3⟩ := processHeader_ok_fields t tmid h hpe
      obtain ⟨hr1, hr2, hr3⟩ := ih tmid hok
      exact ⟨hr1.trans hm1, hr2.trans hm2, hr3.trans hm3⟩

theorem any_headerBadAll (headers : List (PyVal × PyVal)) :
    headers.any headerBadAll
      = (headers.any headerBadBasic || headers.any isHopByHopHeader
          || headers.any badContentLength) := by
  induction headers with
  | nil => rfl
  | cons x xs ih =>
    simp only [List.any_cons, ih, headerBadAll]
    cases headerBadBasic x <;> cases isHopByHopHeader x <;>
      cases badContentLength x <;> simp

theorem start_response_main_err (t1 : Task) (status : PyVal)
    (headers : List (PyVal × PyVal)) :
    isErr (start_response_main t1 status headers)
      = (condC status headers || condD headers || condE headers) := by
  cases status with
  | pystr s =>
    simp only [start_response_main]
    by_cases hs : containsCRLF s = true
    · rw [if_pos hs]
      have hC : condC (PyVal.pystr s) headers = true := by
        simp [condC, statusBad, pyStr, isPyStr, hs]
      rw [hC]
      rfl
    · rw [if_neg hs]
      have hC : condC (PyVal.pystr s) headers = headers.any headerBadBasic := by
        simp [condC, statusBad, pyStr, isPyStr, hs]
      have hRHS : (condC (PyVal.pystr s) headers || condD headers || condE headers)
          = headers.any headerBadAll := by
        rw [hC, any_headerBadAll]
        rfl
      rw [hRHS]
      have herr := processHeaders_err { t1 with status := s } headers
      cases hph : processHeaders { t1 with status := s } headers with
      | error e =>
        rw [hph] at herr
        exact herr
      | ok t3 =>
        rw [hph] at herr
        exact herr
  | pynone => simp [start_response_main, condC, statusBad, isPyStr, isErr]
  | pybool b => simp [start_response_main, condC, statusBad, isPyStr, isErr]
  | pyint i => simp [start_response_main, condC, statusBad, isPyStr, isErr]

theorem start_response_main_ok (t1 t2 : Task) (status : PyVal)
    (headers : List (PyVal × PyVal))
    (hok : start_response_main t1 status headers = Except.ok t2) :
    t2.complete = t1.complete
    ∧ (∃ s, status = PyVal.pystr s ∧ t2.status = s)
    ∧ t2.response_headers = t1.response_headers ++ headersAsStrings headers := by
  cases status with
  | pystr s =>
    simp only [start_response_main] at hok
    by_cases hs : containsCRLF s = true
    · rw [if_pos hs] at hok; cases hok
    · rw [if_neg hs] at hok
      cases hph : processHeaders { t1 with status := s } headers with
      | error e => rw [hph] at hok; cases hok
      | ok t3 =>
        rw [hph] at hok
        cases hok
        obtain ⟨hf1, hf2, hf3⟩ := processHeaders_ok_fields _ t3 headers hph
        exact ⟨hf3, ⟨s, rfl, hf2⟩, by rw [hf1]⟩
  | pynone => cases hok
  | pybool b => cases hok
  | pyint i => cases hok

/-- C6 (amended): `start_response` raises precisely when (a) the task is
complete and no `exc_info` is supplied, (b) `exc_info` arrives after the
header was flushed, (c) the status or a header name or value is non-textual
or contains CR/LF, (d) a header is hop-by-hop, or — the case the claim
omits — (e) a `content-length` header value is rejected by `int()`;
otherwise it records the status, sets `complete`, and appends the headers in
order (after the headers cleared by `exc_info`). -/
theorem C6_amended (t : Task) (status : PyVal) (headers : List (PyVal × PyVal))
    (exc_info : Bool) :
    isErr (start_response t status headers exc_info)
      = (condA t exc_info || condB t exc_info || condC status headers
          || condD headers || condE headers)
    ∧ (∀ t2, start_response t status headers exc_info = Except.ok t2 →
        t2.complete = true
        ∧ (∃ s, status = PyVal.pystr s ∧ t2.status = s)
        ∧ t2.response_headers
            = (if exc_info = true then [] else t.response_headers)
              ++ headersAsStrings headers) := by
  by_cases hA : t.complete = true ∧ exc_info = false
  · have hA2 : condA t exc_info = true := by
      unfold condA; rw [hA.1, hA.2]; rfl
    constructor
    · rw [start_response, if_pos hA, hA2]; rfl
    · intro t2 hok
      rw [start_response, if_pos hA] at hok
      cases hok
  · have hA2 : condA t exc_info = false := by
      unfold condA
      revert hA
      cases hc : t.complete <;> cases he : exc_info <;> simp
    by_cases hB : exc_info = true ∧ t.wrote_header = true
    · have hB2 : condB t exc_info = true := by
        unfold condB; rw [hB.1, hB.2]; rfl
      constructor
      · rw [start_response, if_neg hA, if_pos hB, hA2, hB2]; rfl
      · intro t2 hok
        rw [start_response, if_neg hA, if_pos hB] at hok
        cases hok
    · have hB2 : condB t exc_info = false := by
        unfold condB
        revert hB
        cases he : exc_info <;> cases hw : t.wrote_header <;> simp
      have hmain : start_response t status headers exc_info
          = start_response_main
              { (if exc_info = true then { t with response_headers := [] } else t) with
                complete := true } status headers := by
        rw [start_response, if_neg hA, if_neg hB]
      constructor
      · rw [hmain, start_response_main_err, hA2, hB2, Bool.false_or, Bool.false_or]
      · intro t2 hok
        rw [hmain] at hok
        obtain ⟨ho1, ho2, ho3⟩ := start_response_main_ok _ t2 status headers hok
        refine ⟨ho1, ho2, ?_⟩
        rw [ho3]
        cases he : exc_info <;> simp [he]

/-- C6 (counterexample): a fresh task, a clean status and the single header
`('Content-Length', 'abc')` satisfy none of the claim's conditions (a)-(d),
yet `start_response` raises — `int('abc')` fails — so the claimed
"precisely when" equivalence is false. -/
theorem C6_counterexample :
    condA sample11 false = false
    ∧ condB sample11 false = false
    ∧ condC (PyVal.pystr "200 OK")
        [(PyVal.pystr "Content-Length", PyVal.pystr "abc")] = false
    ∧ condD [(PyVal.pystr "Content-Length", PyVal.pystr "abc")] = false
    ∧ isErr (start_response sample11 (PyVal.pystr "200 OK")
        [(PyVal.pystr "Content-Length", PyVal.pystr "abc")] false) = true := by
  decide

/-- C6 (witness for the amended claim on a clean call). -/
theorem C6_witness :
    isErr (start_response sample11 (PyVal.pystr "200 OK")
        [(PyVal.pystr "Content-Type", PyVal.pystr "text/plain")] false)
      = (condA sample11 false || condB sample11 false
          || condC (PyVal.pystr "200 OK")
              [(PyVal.pystr "Content-Type", PyVal.pystr "text/plain")]
          || condD [(PyVal.pystr "Content-Type", PyVal.pystr "text/plain")]
          || condE [(PyVal.pystr "Content-Type", PyVal.pystr "text/plain")])
    ∧ ∃ t2, start_response sample11 (PyVal.pystr "200 OK")
        [(PyVal.pystr "Content-Type", PyVal.pystr "text/plain")] false
          = Except.ok t2
        ∧ t2.complete = true := by
  have h := C6_amended sample11 (PyVal.pystr "200 OK")
    [(PyVal.pystr "Content-Type", PyVal.pystr "text/plain")] false
  exact ⟨h.1, ⟨_, rfl, (h.2 _ rfl).1⟩⟩

/-! ## C7: the stable header sort -/

/-- C7: the serialisation of `build_response_header` sorts the (already
canonicalised) header list with a stable sort keyed only on the name: the
output is sorted by name, two headers with the same name appear in the
same relative order they were supplied, and the status line precedes all
headers. -/
theorem C7_stable_sort (version status : String) (hs : List Header) (x y : Header)
    (hname : x.1 = y.1) (hsub : List.Sublist [x, y] hs) :
    List.Sublist [x, y] (sortHeaders hs)
    ∧ List.Sorted headerLE (sortHeaders hs)
    ∧ (responseLines version status hs).head?
        = some ("HTTP/" ++ version ++ " " ++ status) := by
  refine ⟨?_, List.sorted_insertionSort headerLE hs, rfl⟩
  exact List.pair_sublist_insertionSort (le_of_eq hname) hsub

/-- C7 (witness): two same-named headers around an earlier-sorting name. -/
theorem C7_stable_sort_witness :
    List.Sublist [(("B", "1") : Header), ("B", "2")]
        (sortHeaders [("B", "1"), ("A", "x"), ("B", "2")])
    ∧ List.Sorted headerLE (sortHeaders [("B", "1"), ("A", "x"), ("B", "2")])
    ∧ (responseLines "1.1" "200 OK" [("B", "1"), ("A", "x"), ("B", "2")]).head?
        = some ("HTTP/" ++ "1.1" ++ " " ++ "200 OK") :=
  C7_stable_sort "1.1" "200 OK" [("B", "1"), ("A", "x"), ("B", "2")]
    ("B", "1") ("B", "2") rfl (by decide)

/-! ## C9: the version fallback -/

/-- C9: the constructor falls back to version `1.0` for any request version
outside `{1.0, 1.1}`, so every constructed task's version is `1.0` or `1.1`
and `build_response_header` never reaches its `neither HTTP/1.0 or
HTTP/1.1` assertion. -/
theorem C9_version_fallback (v rc cmd idt dt : String) (t : Task)
    (hv : t.version = (Task.init v rc cmd idt dt).version) :
    (t.version = "1.0" ∨ t.version = "1.1")
    ∧ ∃ r, build_response_header t = Except.ok r := by
  have h1 : t.version = "1.0" ∨ t.version = "1.1" := by
    rw [hv]; unfold Task.init; dsimp only
    by_cases h : v = "1.0" ∨ v = "1.1"
    · rw [if_pos h]; exact h
    · rw [if_neg h]; exact Or.inl rfl
  refine ⟨h1, ?_⟩
  rcases h1 with h | h <;> simp [build_response_header, h]

/-- C9 (witness): the fallback applied to request version `2.0`. -/
theorem C9_version_fallback_witness :
    ((Task.init "2.0" "" "GET" "waitress" "DATE").version = "1.0"
      ∨ (Task.init "2.0" "" "GET" "waitress" "DATE").version = "1.1")
    ∧ ∃ r, build_response_header (Task.init "2.0" "" "GET" "waitress" "DATE")
        = Except.ok r :=
  C9_version_fallback "2.0" "" "GET" "waitress" "DATE"
    (Task.init "2.0" "" "GET" "waitress" "DATE") rfl

end Waitress
